import Mathlib

/-!
Verification of the authentication and second-factor subsystem of the
repository (routes/login.ts, routes/2fa.ts, and the public file server),
via a shallow embedding in Lean 4.

Conventions of the embedding:
* JavaScript objects keyed by strings become association lists.
* `Date.now()` becomes an explicit `now : Nat` parameter (milliseconds).
* The security library (token signing, hashing, session registry) and the
  `otplib` TOTP library are not part of the given sources; they are
  modelled from the spec (each such definition carries a doc comment
  starting `Modelled from the spec:`).
* Signed tokens are modelled as an inductive: a token either carries a
  payload validly signed by the server, or is forged/tampered, in which
  case signature verification fails and decoding yields nothing.
-/

namespace JuiceAuth

/-- A credential record as stored by the persistence collaborator
(`UserModel` in the source): id, email, stored password hash, TOTP secret
(empty string = not enrolled), role. -/
structure UserRecord where
  id : Nat
  email : String
  password : String
  totpSecret : String
  role : String
deriving DecidableEq

/-- Token payloads. The source signs three shapes of object:
`{userId, type: 'password_valid_needs_second_factor_token'}` in login,
`{secret, type: 'totp_setup_secret'}` in the 2FA status endpoint, and a
whole user snapshot (no `type` field) for full session tokens. -/
inductive Payload where
  | needsSecondFactor (userId : Nat)
  | totpSetup (secret : String)
  | session (data : UserRecord) (bid : Option Nat)
deriving DecidableEq

/-- The `type` field read off a decoded payload (`undefined` ⇒ `none`). -/
def Payload.typeField : Payload → Option String
  | .needsSecondFactor _ => some "password_valid_needs_second_factor_token"
  | .totpSetup _ => some "totp_setup_secret"
  | .session _ _ => none

/-- The `userId` field read off a decoded payload (`undefined` ⇒ `none`). -/
def Payload.userIdField : Payload → Option Nat
  | .needsSecondFactor i => some i
  | _ => none

/-- The `secret` field read off a decoded payload (`undefined` ⇒ `none`). -/
def Payload.secretField : Payload → Option String
  | .totpSetup s => some s
  | _ => none

/-- Modelled from the spec: a Signed Token is an opaque string carrying a
payload and type, cryptographically signed (§3, §4.2 of the spec; the
signing primitive `security.authorize` is not among the given sources).
`signed p` stands for a token correctly signed by the process key with
payload `p`; `forged s` stands for any other string (malformed, tampered,
or expired). -/
inductive Token where
  | signed (p : Payload)
  | forged (raw : String)
deriving DecidableEq

/-- Modelled from the spec: `verify(token) -> bool` checks signature
integrity (§4.2); true exactly on server-signed tokens. -/
def verifyToken : Token → Bool
  | .signed _ => true
  | .forged _ => false

/-- Modelled from the spec: `decode(token) -> {payload, type}` (§4.2);
fails closed on tampered tokens. -/
def decodeToken : Token → Option Payload
  | .signed p => some p
  | .forged _ => none

/-- Modelled from the spec: the Secret Comparator's deterministic one-way
digest (`hash` / `hashPassword` in the security library, §4.1). Modelled
as an injective tagging function: determinism is all the claims need. -/
def hashPassword (s : String) : String := "digest:" ++ s

/-- Modelled from the spec: `security.hash` — the same digest primitive
(§4.1 specifies a single `hash(plaintext) -> digest` operation). -/
def hash (s : String) : String := hashPassword s

/-- Modelled from the spec: `constantTimeEqual(a, b) -> bool` (§4.1) —
functionally plain equality; the timing aspect is not observable in the
embedding. -/
def constantTimeCompare (a b : String) : Bool := a == b

/-- Modelled from the spec: the TOTP code for a given secret at a given
time step (§4.3's standard time-step algorithm; `otplib` is an external
library). The code is a function of the secret and the step, injective in
the step for a fixed secret. -/
def totpCode (secret : String) (step : Nat) : String :=
  secret ++ String.mk (List.replicate step 't')

/-- Modelled from the spec: `check(code, secret) -> bool` with the
configured clock-drift window of 1 step on either side
(`otplib.authenticator.options = { window: 1 }` in routes/2fa.ts):
a code is accepted iff it is the code of the previous, current, or next
time step. -/
def totpCheck (code secret : String) (step : Nat) : Bool :=
  code == totpCode secret (step - 1) ||
  code == totpCode secret step ||
  code == totpCode secret (step + 1)

/-- A failed-login entry: `{ count, lastAttempt }` in routes/login.ts. -/
structure LockEntry where
  count : Nat
  lastAttempt : Nat
deriving DecidableEq

/-- The constant `FAILED_ATTEMPTS_LIMIT` in routes/login.ts. -/
def FAILED_ATTEMPTS_LIMIT : Nat := 5

/-- The constant `LOCK_TIME_MS` in routes/login.ts (15 minutes). -/
def LOCK_TIME_MS : Nat := 15 * 60 * 1000

/-- Reading `failedLoginAttempts[key]` — lookup in the failed-attempts map. -/
def lookupLock : List (String × LockEntry) → String → Option LockEntry
  | [], _ => none
  | (k, e) :: rest, key => if k = key then some e else lookupLock rest key

/-- The statement `delete failedLoginAttempts[key]`. -/
def eraseLock (l : List (String × LockEntry)) (key : String) :
    List (String × LockEntry) :=
  l.filter (fun p => p.1 ≠ key)

/-- Assignment `failedLoginAttempts[key] = e` on an existing key. -/
def setLock : List (String × LockEntry) → String → LockEntry →
    List (String × LockEntry)
  | [], key, e => [(key, e)]
  | (k, e0) :: rest, key, e =>
    if k = key then (key, e) :: rest else (k, e0) :: setLock rest key e

/-- The failure branch of routes/login.ts lines 79-84: create the entry
with count 1, or increment the count and stamp the time. -/
def recordFailure (l : List (String × LockEntry)) (key : String) (now : Nat) :
    List (String × LockEntry) :=
  match lookupLock l key with
  | none => (key, ⟨1, now⟩) :: l
  | some e => setLock l key ⟨e.count + 1, now⟩

/-- The lockout key `` `${email}:${req.ip}` `` of routes/login.ts. -/
def lockKey (email ip : String) : String := email ++ ":" ++ ip

/-- The spec's `isLocked(key)` predicate (§4.4), matching the rejection
guard of routes/login.ts lines 38-41: an entry exists with
count ≥ threshold and the elapsed time strictly within the window. -/
def isLockedNow (l : List (String × LockEntry)) (key : String) (now : Nat) :
    Bool :=
  match lookupLock l key with
  | some e =>
    decide (FAILED_ATTEMPTS_LIMIT ≤ e.count) &&
    decide (now - e.lastAttempt < LOCK_TIME_MS)
  | none => false

/-- A session registry value: the identity snapshot
(`{ data: User, bid }`) stored by `authenticatedUsers.put`. -/
structure SessionUser where
  data : UserRecord
  bid : Option Nat
deriving DecidableEq

/-- Modelled from the spec: Session Registry lookup `from` (§4.5) — the
bearer token resolved to its registered snapshot, newest entry first. -/
def lookupSession : List (Token × SessionUser) → Token → Option SessionUser
  | [], _ => none
  | (t, v) :: rest, tok => if t = tok then some v else lookupSession rest tok

/-- Modelled from the spec: Session Registry `put` (§4.5) — registers a
mapping; a later `put` on the same token shadows the earlier one. -/
def putSession (l : List (Token × SessionUser)) (t : Token) (v : SessionUser) :
    List (Token × SessionUser) :=
  (t, v) :: l

/-- A basket row (`BasketModel`): id and owning user id. -/
structure Basket where
  id : Nat
  userId : Nat
deriving DecidableEq

/-- The whole mutable state the two routes touch: the user table, the
basket table (with a fresh-id counter), the session registry, and the
failed-login-attempts map (the latter is local to the login closure in
routes/login.ts; routes/2fa.ts has no access to it). -/
structure SystemState where
  db : List UserRecord
  baskets : List Basket
  nextBasketId : Nat
  sessions : List (Token × SessionUser)
  failed : List (String × LockEntry)
deriving DecidableEq

/-- The query `UserModel.findOne` by email and password hash. -/
def findUser (db : List UserRecord) (email hashed : String) :
    Option UserRecord :=
  db.find? (fun u => u.email == email && u.password == hashed)

/-- The query `UserModel.findByPk(id)`. -/
def findById (db : List UserRecord) (i : Nat) : Option UserRecord :=
  db.find? (fun u => u.id == i)

/-- Saving `userModel.save()` after mutating the row with the given id. -/
def updateUser (db : List UserRecord) (i : Nat) (v : UserRecord) :
    List UserRecord :=
  db.map (fun u => if u.id = i then v else u)

/-- The call `BasketModel.findOrCreate` keyed by user id: the existing
basket's id, or a fresh basket. -/
def findOrCreateBasket (st : SystemState) (uid : Nat) : Nat × SystemState :=
  match st.baskets.find? (fun b => b.userId == uid) with
  | some b => (b.id, st)
  | none =>
    (st.nextBasketId,
      { st with baskets := ⟨st.nextBasketId, uid⟩ :: st.baskets,
                nextBasketId := st.nextBasketId + 1 })

/-- The login route's response (routes/login.ts). -/
inductive LoginResponse where
  | rateLimited
  | totpRequired (tmpToken : Token)
  | success (token : Token) (bid : Nat) (umail : String)
  | invalid
deriving DecidableEq

/-- Function `afterLogin` of routes/login.ts lines 17-28: find-or-create the
basket, authorize a full session token over the user snapshot (the `bid`
is set on the object only after signing, so the signed payload carries no
bid), register the session, respond with token + basket id + email. -/
def afterLogin (st : SystemState) (u : UserRecord) (hashed : String) :
    String × LoginResponse × SystemState :=
  let p := findOrCreateBasket st u.id
  let token := Token.signed (.session u none)
  (hashed, .success token p.1 u.email,
    { p.2 with sessions := putSession p.2.sessions token ⟨u, some p.1⟩ })

/-- The body of the login handler after the lockout guard
(routes/login.ts lines 47-86): hash the submitted password, look up the
credential record by email + hash, then branch on `user.data?.id`
truthiness and on the TOTP secret. The first component records the hash
that was computed (the Secret Comparator invocation). -/
def loginMain (st : SystemState) (email password ip : String) (now : Nat) :
    String × LoginResponse × SystemState :=
  let hashed := hashPassword password
  let key := lockKey email ip
  match findUser st.db email hashed with
  | some u =>
    if u.id ≠ 0 ∧ u.totpSecret ≠ "" then
      (hashed, .totpRequired (Token.signed (.needsSecondFactor u.id)),
        { st with failed := eraseLock st.failed key })
    else if u.id ≠ 0 then
      afterLogin { st with failed := eraseLock st.failed key } u hashed
    else
      (hashed, .invalid, { st with failed := recordFailure st.failed key now })
  | none =>
    (hashed, .invalid, { st with failed := recordFailure st.failed key now })

/-- The full login handler (routes/login.ts lines 34-90), instrumented:
the first component is `some` of the computed password digest when the
Secret Comparator was invoked and `none` when the request was rejected by
the lockout guard before hashing. -/
def loginAttempt (st : SystemState) (email password ip : String) (now : Nat) :
    Option String × LoginResponse × SystemState :=
  match lookupLock st.failed (lockKey email ip) with
  | some e =>
    if FAILED_ATTEMPTS_LIMIT ≤ e.count then
      if now - e.lastAttempt < LOCK_TIME_MS then
        (none, .rateLimited, st)
      else
        let r := loginMain
          { st with failed := eraseLock st.failed (lockKey email ip) }
          email password ip now
        (some r.1, r.2)
    else
      let r := loginMain st email password ip now
      (some r.1, r.2)
  | none =>
    let r := loginMain st email password ip now
    (some r.1, r.2)

/-- The login handler's observable behaviour: response and new state. -/
def login (st : SystemState) (email password ip : String) (now : Nat) :
    LoginResponse × SystemState :=
  (loginAttempt st email password ip now).2

/-- One login request, for reasoning about request sequences. -/
structure LoginReq where
  email : String
  password : String
  ip : String
  now : Nat

/-- Run a sequence of login requests against a state. -/
def runLogins (st : SystemState) : List LoginReq → SystemState
  | [] => st
  | r :: rs => runLogins (login st r.email r.password r.ip r.now).2 rs

/-- Response of the 2FA `verify` endpoint (routes/2fa.ts lines 22-57):
a full session response, or an empty 401. -/
inductive VerifyResponse where
  | ok (token : Token) (bid : Nat) (umail : String)
  | unauthorized
deriving DecidableEq

/-- The `verify` handler of routes/2fa.ts lines 22-57. The source reads
`const { userId, type } = security.verify(tmpToken) && security.decode(tmpToken)`:
when verification fails the destructured fields are absent, so the type
check throws; every thrown error is caught and mapped to a bare 401.
`step` stands for the current TOTP time step. -/
def twoFactorVerify (st : SystemState) (tmpToken : Token) (totpToken : String)
    (step : Nat) : VerifyResponse × SystemState :=
  let decoded := if verifyToken tmpToken then decodeToken tmpToken else none
  if decoded.bind Payload.typeField ≠
      some "password_valid_needs_second_factor_token" then
    (.unauthorized, st)
  else
    match decoded.bind Payload.userIdField with
    | none => (.unauthorized, st)
    | some uid =>
      match findById st.db uid with
      | none => (.unauthorized, st)
      | some user =>
        if totpCheck totpToken user.totpSecret step then
          let p := findOrCreateBasket st uid
          let token := Token.signed (.session user none)
          (.ok token p.1 user.email,
            { p.2 with sessions := putSession p.2.sessions token ⟨user, some p.1⟩ })
        else
          (.unauthorized, st)

/-- Response of the 2FA `status` endpoint (routes/2fa.ts lines 64-92). -/
inductive StatusResponse where
  | notSetup (secret email : String) (setupToken : Token)
  | enrolled
  | unauthorized
deriving DecidableEq

/-- The `status` handler of routes/2fa.ts lines 64-92. The randomly
generated `otplib.authenticator.generateSecret()` is modelled as the
explicit parameter `freshSecret`. The handler mutates nothing, so only
the response is returned. `unauthorized` is the empty 401 response. -/
def twoFactorStatus (st : SystemState) (reqToken : Token)
    (freshSecret : String) : StatusResponse :=
  match lookupSession st.sessions reqToken with
  | none => .unauthorized
  | some d =>
    if d.data.totpSecret = "" then
      .notSetup freshSecret d.data.email (Token.signed (.totpSetup freshSecret))
    else
      .enrolled

/-- Response of the 2FA `setup` endpoint (routes/2fa.ts lines 103-143):
bare 200 or bare 401. -/
inductive SetupResponse where
  | ok
  | unauthorized
deriving DecidableEq

/-- The `setup` handler of routes/2fa.ts lines 103-143, with the checks
in source order: session resolves; submitted password re-hashed and
compared (constant-time) against the stored hash; current secret empty;
setup token verifies and decodes to type `totp_setup_secret`; the first
TOTP code validates against the decoded secret; the user row exists. On
success the secret is persisted and the session snapshot replaced via
`updateFrom` (which re-`put`s the snapshot, without a basket id). -/
def twoFactorSetup (st : SystemState) (reqToken : Token) (password : String)
    (setupToken : Token) (initialToken : String) (step : Nat) :
    SetupResponse × SystemState :=
  match lookupSession st.sessions reqToken with
  | none => (.unauthorized, st)
  | some d =>
    if constantTimeCompare d.data.password (hash password) then
      if d.data.totpSecret ≠ "" then (.unauthorized, st)
      else
        let decoded := if verifyToken setupToken then decodeToken setupToken else none
        if decoded.bind Payload.typeField ≠ some "totp_setup_secret" then
          (.unauthorized, st)
        else
          match decoded.bind Payload.secretField with
          | none => (.unauthorized, st)
          | some secret =>
            if totpCheck initialToken secret step then
              match findById st.db d.data.id with
              | none => (.unauthorized, st)
              | some userModel =>
                let updated := { userModel with totpSecret := secret }
                (.ok,
                  { st with
                      db := updateUser st.db d.data.id updated,
                      sessions := putSession st.sessions reqToken ⟨updated, none⟩ })
            else (.unauthorized, st)
    else (.unauthorized, st)

/-- The conjunction of conditions under which the 2FA `setup` handler
reaches its success path: a session resolves, the submitted password's
hash matches the stored hash under the constant-time comparator, the
current TOTP secret is empty, the setup token verifies and decodes to the
setup-secret type, and the submitted first TOTP code validates against
the decoded secret. -/
def SetupOk (st : SystemState) (reqToken : Token) (password : String)
    (setupToken : Token) (initialToken : String) (step : Nat) : Prop :=
  ∃ d, lookupSession st.sessions reqToken = some d
    ∧ constantTimeCompare d.data.password (hash password) = true
    ∧ d.data.totpSecret = ""
    ∧ verifyToken setupToken = true
    ∧ ∃ secret, decodeToken setupToken = some (.totpSetup secret)
        ∧ totpCheck initialToken secret step = true

/-! ### The public file server (src/unnamed/part_000) -/

/-- The check `str.endsWith(suffix)` on the underlying character lists. -/
def endsWithChars (s suf : List Char) : Bool :=
  s.drop (s.length - suf.length) == suf

/-- The allowlist `utils.endsWith(param, '.md') || utils.endsWith(param, '.pdf')`. -/
def endsWithAllowlistedFileType (param : String) : Bool :=
  endsWithChars param.data ".md".data || endsWithChars param.data ".pdf".data

/-- Truncation of a character list at the first occurrence of `%00`. -/
def cutAtNull : List Char → List Char
  | '%' :: '0' :: '0' :: _ => []
  | c :: rest => c :: cutAtNull rest
  | [] => []

/-- Modelled from the spec: `security.cutOffPoisonNullByte` of the
security library (not among the given sources) — truncates the name at
the first percent-encoded null byte `%00`
(`str.substring(0, str.indexOf('%00'))`), otherwise returns it
unchanged. -/
def cutOffPoisonNullByte (s : String) : String :=
  String.mk (cutAtNull s.data)

/-- The global regex replace
`file.replace(/(\.\.[\/\\])|[\/\\]/g, '')` on the underlying character
list: leftmost-first, non-overlapping, removing `../` and `..\` fragments
and bare slashes/backslashes. -/
def sanitizeChars : List Char → List Char
  | '.' :: '.' :: '/' :: rest => sanitizeChars rest
  | '.' :: '.' :: '\\' :: rest => sanitizeChars rest
  | '/' :: rest => sanitizeChars rest
  | '\\' :: rest => sanitizeChars rest
  | c :: rest => c :: sanitizeChars rest
  | [] => []

/-- The sanitization step of `servePublicFiles`. -/
def sanitizeFile (s : String) : String := String.mk (sanitizeChars s.data)

/-- The resolved `path.resolve('ftp/')` base directory, as a segment
list. -/
def basePath : List String := ["srv", "ftp"]

/-- Node's `path.resolve(basePath, name)` for a single path segment
`name` containing no slashes: empty or `.` stays at the base, `..` goes
to the parent, anything else appends a segment. -/
def resolveInBase (base : List String) (name : String) : List String :=
  if name = "" ∨ name = "." then base
  else if name = ".." then base.dropLast
  else base ++ [name]

/-- The containment check of resolvedPath against basePath plus separator,
on segment lists: the
resolved path extends the base by at least one segment. -/
def withinBase (base resolved : List String) : Bool :=
  decide (base.length < resolved.length) && resolved.take base.length == base

/-- Responses of `servePublicFiles`: the three 403 rejections, or the
file actually sent (`res.sendFile(resolvedPath)`). -/
inductive FileResponse where
  | forbiddenSlash
  | forbiddenType
  | forbiddenTraversal
  | sent (resolvedPath : List String)
deriving DecidableEq

/-- The HTTP status of a `servePublicFiles` response. -/
def fileStatus : FileResponse → Nat
  | .sent _ => 200
  | _ => 403

/-- The body of `verify` inside `servePublicFiles`
(src/unnamed/part_000 lines 26-47): allowlist check on the raw name,
poison-null-byte cutoff, sanitization, resolution against the `ftp/`
base, containment check, send. -/
def verifyFile (file : String) : FileResponse :=
  if file ≠ "" ∧
      (endsWithAllowlistedFileType file = true ∨ file = "incident-support.kdbx") then
    let f := cutOffPoisonNullByte file
    let sanitized := sanitizeFile f
    let resolved := resolveInBase basePath sanitized
    if withinBase basePath resolved then .sent resolved
    else .forbiddenTraversal
  else .forbiddenType

/-- Handler `servePublicFiles` (src/unnamed/part_000 lines 14-24): names with a
forward or backward slash are rejected outright, everything else goes to
`verifyFile`. -/
def servePublicFiles (file : String) : FileResponse :=
  if !(file.data.any (fun c => c == '/')) &&
      !(file.data.any (fun c => c == '\\')) then verifyFile file
  else .forbiddenSlash

/-- The basket id associated to a user id, if any. -/
def basketIdFor (baskets : List Basket) (uid : Nat) : Option Nat :=
  (baskets.find? (fun b => b.userId == uid)).map Basket.id

/-- The lockout invariant: no entry of the failed-login-attempts map has
a failure count above the threshold. -/
def LockInv (st : SystemState) : Prop :=
  ∀ p ∈ st.failed, p.2.count ≤ FAILED_ATTEMPTS_LIMIT

/-! ### Sample data shared by the witnesses -/

/-- A user without TOTP enrollment. -/
def sampleUser : UserRecord :=
  { id := 1, email := "a@x.com", password := hashPassword "p",
    totpSecret := "", role := "customer" }

/-- A TOTP-enrolled user. -/
def sampleEnrolled : UserRecord :=
  { id := 2, email := "b@x.com", password := hashPassword "q",
    totpSecret := "SECRET", role := "customer" }

/-- A fresh state holding both sample users. -/
def sampleState : SystemState :=
  { db := [sampleUser, sampleEnrolled], baskets := [], nextBasketId := 1,
    sessions := [], failed := [] }

/-- A state whose lockout map holds a locked entry for `sampleUser`'s
email from ip `ip`. -/
def lockedState : SystemState :=
  { sampleState with failed := [(lockKey "a@x.com" "ip", ⟨5, 0⟩)] }

/-- The session token under which `sampleUser` is logged in, in
`sessionState`. -/
def sampleSessionToken : Token := Token.signed (.session sampleUser none)

/-- A state in which `sampleUser` has a live session. -/
def sessionState : SystemState :=
  { db := [sampleUser], baskets := [⟨1, 1⟩], nextBasketId := 2,
    sessions := [(sampleSessionToken, ⟨sampleUser, some 1⟩)], failed := [] }

/-- A state holding only the enrolled sample user, with an empty lockout
map. -/
def enrolledState : SystemState :=
  { db := [sampleEnrolled], baskets := [], nextBasketId := 1,
    sessions := [], failed := [] }

/-! ### Helper lemmas -/

theorem totpCode_length (secret : String) (n : Nat) :
    (totpCode secret n).length = secret.length + n := by
  rw [totpCode, String.length_append]
  show secret.length + (List.replicate n 't').length = secret.length + n
  rw [List.length_replicate]

theorem totpCode_inj (secret : String) {a b : Nat}
    (h : totpCode secret a = totpCode secret b) : a = b := by
  have hl := congrArg String.length h
  rw [totpCode_length, totpCode_length] at hl
  omega

theorem lookupLock_erase (l : List (String × LockEntry)) (key : String) :
    lookupLock (eraseLock l key) key = none := by
  induction l with
  | nil => rfl
  | cons p rest ih =>
    by_cases h : p.1 = key
    · simpa [eraseLock, h] using ih
    · simpa [eraseLock, lookupLock, h] using ih

theorem mem_eraseLock {l : List (String × LockEntry)} {key : String}
    {p : String × LockEntry} (h : p ∈ eraseLock l key) : p ∈ l :=
  List.mem_of_mem_filter h

theorem mem_setLock {l : List (String × LockEntry)} {key : String}
    {e : LockEntry} {p : String × LockEntry} (h : p ∈ setLock l key e) :
    p = (key, e) ∨ p ∈ l := by
  induction l with
  | nil => simpa [setLock] using h
  | cons q rest ih =>
    by_cases hq : q.1 = key
    · rw [setLock, if_pos hq] at h
      rcases List.mem_cons.mp h with h | h
      · exact Or.inl h
      · exact Or.inr (List.mem_cons_of_mem q h)
    · rw [setLock, if_neg hq] at h
      rcases List.mem_cons.mp h with h | h
      · exact Or.inr (h ▸ List.mem_cons_self q rest)
      · rcases ih h with h | h
        · exact Or.inl h
        · exact Or.inr (List.mem_cons_of_mem q h)

theorem mem_recordFailure {l : List (String × LockEntry)} {key : String}
    {now : Nat} {p : String × LockEntry} (h : p ∈ recordFailure l key now) :
    p.2.count = 1
    ∨ (∃ e, lookupLock l key = some e ∧ p.2.count = e.count + 1)
    ∨ p ∈ l := by
  unfold recordFailure at h
  cases hl : lookupLock l key with
  | none =>
    rw [hl] at h
    rcases List.mem_cons.mp h with h | h
    · exact Or.inl (by rw [h])
    · exact Or.inr (Or.inr h)
  | some e =>
    rw [hl] at h
    rcases mem_setLock h with h | h
    · exact Or.inr (Or.inl ⟨e, rfl, by rw [h]⟩)
    · exact Or.inr (Or.inr h)

theorem lookupSession_put (l : List (Token × SessionUser)) (t : Token)
    (v : SessionUser) : lookupSession (putSession l t v) t = some v := by
  simp [putSession, lookupSession]

theorem findOrCreateBasket_spec (st : SystemState) (uid : Nat) :
    basketIdFor (findOrCreateBasket st uid).2.baskets uid
      = some (findOrCreateBasket st uid).1
    ∧ (findOrCreateBasket st uid).2.db = st.db
    ∧ (findOrCreateBasket st uid).2.sessions = st.sessions
    ∧ (findOrCreateBasket st uid).2.failed = st.failed := by
  unfold findOrCreateBasket basketIdFor
  cases h : st.baskets.find? (fun b => b.userId == uid) with
  | some b => simp [h]
  | none => simp [h]

theorem isLockedNow_iff {l : List (String × LockEntry)} {key : String}
    {now : Nat} :
    isLockedNow l key now = true ↔
      ∃ e, lookupLock l key = some e ∧ FAILED_ATTEMPTS_LIMIT ≤ e.count
        ∧ now - e.lastAttempt < LOCK_TIME_MS := by
  unfold isLockedNow
  cases hl : lookupLock l key with
  | none => simp
  | some e => simp [hl]

theorem loginMain_totp (st : SystemState) (email password ip : String)
    (now : Nat) (u : UserRecord)
    (hfind : findUser st.db email (hashPassword password) = some u)
    (hid : u.id ≠ 0) (htotp : u.totpSecret ≠ "") :
    loginMain st email password ip now
      = (hashPassword password,
         .totpRequired (Token.signed (.needsSecondFactor u.id)),
         { st with failed := eraseLock st.failed (lockKey email ip) }) := by
  simp [loginMain, hfind, hid, htotp]

theorem loginMain_success (st : SystemState) (email password ip : String)
    (now : Nat) (u : UserRecord)
    (hfind : findUser st.db email (hashPassword password) = some u)
    (hid : u.id ≠ 0) (htotp : u.totpSecret = "") :
    loginMain st email password ip now
      = afterLogin { st with failed := eraseLock st.failed (lockKey email ip) }
          u (hashPassword password) := by
  simp [loginMain, hfind, hid, htotp]

theorem loginMain_fail (st : SystemState) (email password ip : String)
    (now : Nat)
    (hfind : findUser st.db email (hashPassword password) = none) :
    loginMain st email password ip now
      = (hashPassword password, .invalid,
         { st with failed := recordFailure st.failed (lockKey email ip) now }) := by
  simp [loginMain, hfind]

theorem loginMain_ne_rateLimited (st : SystemState)
    (email password ip : String) (now : Nat) :
    (loginMain st email password ip now).2.1 ≠ .rateLimited := by
  cases hf : findUser st.db email (hashPassword password) with
  | none => simp [loginMain, hf]
  | some u =>
    by_cases h1 : u.id ≠ 0 ∧ u.totpSecret ≠ ""
    · simp [loginMain, hf, h1]
    · by_cases h2 : u.id ≠ 0
      · have hts : u.totpSecret = "" := by
          by_contra hne
          exact h1 ⟨h2, hne⟩
        simp [loginMain, afterLogin, hf, h1, h2, hts]
      · simp [loginMain, hf, h1, h2]

theorem loginAttempt_locked (st : SystemState) (email password ip : String)
    (now : Nat)
    (h : isLockedNow st.failed (lockKey email ip) now = true) :
    loginAttempt st email password ip now = (none, .rateLimited, st) := by
  obtain ⟨e, hl, hc, ht⟩ := isLockedNow_iff.mp h
  simp [loginAttempt, hl, hc, ht]

theorem loginAttempt_elapsed (st : SystemState) (email password ip : String)
    (now : Nat) (e : LockEntry)
    (hl : lookupLock st.failed (lockKey email ip) = some e)
    (hc : FAILED_ATTEMPTS_LIMIT ≤ e.count)
    (ht : ¬ now - e.lastAttempt < LOCK_TIME_MS) :
    loginAttempt st email password ip now
      = (some (loginMain { st with failed := eraseLock st.failed (lockKey email ip) }
            email password ip now).1,
         (loginMain { st with failed := eraseLock st.failed (lockKey email ip) }
            email password ip now).2) := by
  simp [loginAttempt, hl, hc, ht]

theorem loginAttempt_free (st : SystemState) (email password ip : String)
    (now : Nat)
    (h : ∀ e, lookupLock st.failed (lockKey email ip) = some e →
        e.count < FAILED_ATTEMPTS_LIMIT) :
    loginAttempt st email password ip now
      = (some (loginMain st email password ip now).1,
         (loginMain st email password ip now).2) := by
  cases hl : lookupLock st.failed (lockKey email ip) with
  | none => simp [loginAttempt, hl]
  | some e =>
    have := h e hl
    simp [loginAttempt, hl, Nat.not_le.mpr this]

theorem eraseLock_idem (l : List (String × LockEntry)) (key : String) :
    eraseLock (eraseLock l key) key = eraseLock l key := by
  simp [eraseLock, List.filter_filter]

theorem login_unlocked_eq (st : SystemState) (email password ip : String)
    (now : Nat)
    (hnl : isLockedNow st.failed (lockKey email ip) now = false) :
    ∃ st1 : SystemState, st1.db = st.db
      ∧ st1.sessions = st.sessions
      ∧ eraseLock st1.failed (lockKey email ip)
          = eraseLock st.failed (lockKey email ip)
      ∧ login st email password ip now
          = (loginMain st1 email password ip now).2 := by
  cases hl : lookupLock st.failed (lockKey email ip) with
  | none =>
    refine ⟨st, rfl, rfl, rfl, ?_⟩
    have hA := loginAttempt_free st email password ip now
      (fun e he => by rw [hl] at he; cases he)
    simp only [login, hA]
  | some e =>
    by_cases hc : FAILED_ATTEMPTS_LIMIT ≤ e.count
    · have ht : ¬ now - e.lastAttempt < LOCK_TIME_MS := fun hcon => by
        have habs : isLockedNow st.failed (lockKey email ip) now = true :=
          isLockedNow_iff.mpr ⟨e, hl, hc, hcon⟩
        rw [hnl] at habs
        cases habs
      refine ⟨{ st with failed := eraseLock st.failed (lockKey email ip) },
        rfl, rfl, eraseLock_idem _ _, ?_⟩
      have hA := loginAttempt_elapsed st email password ip now e hl hc ht
      simp only [login, hA]
    · refine ⟨st, rfl, rfl, rfl, ?_⟩
      have hA := loginAttempt_free st email password ip now
        (fun e2 he2 => by rw [hl] at he2; cases he2; omega)
      simp only [login, hA]

theorem afterLogin_spec (st : SystemState) (u : UserRecord) (hashed : String) :
    ∃ bid,
      (afterLogin st u hashed).2.1
        = .success (Token.signed (.session u none)) bid u.email
      ∧ lookupSession (afterLogin st u hashed).2.2.sessions
          (Token.signed (.session u none)) = some ⟨u, some bid⟩
      ∧ (afterLogin st u hashed).2.2.failed = st.failed
      ∧ basketIdFor (afterLogin st u hashed).2.2.baskets u.id = some bid := by
  refine ⟨(findOrCreateBasket st u.id).1, rfl, ?_, ?_, ?_⟩
  · exact lookupSession_put _ _ _
  · exact (findOrCreateBasket_spec st u.id).2.2.2
  · exact (findOrCreateBasket_spec st u.id).1

/-! ### Claim theorems -/

/-- C9: the TOTP check accepts a submitted code if and only if it is valid
for the current time step or one adjacent step on either side: the codes of
the immediately preceding, current and following steps validate, every
accepted code is one of those three, and a code generated for a step two or
more windows away is rejected. -/
theorem totp_window_policy (secret : String) (step : Nat) :
    totpCheck (totpCode secret step) secret step = true
  ∧ totpCheck (totpCode secret (step - 1)) secret step = true
  ∧ totpCheck (totpCode secret (step + 1)) secret step = true
  ∧ (∀ code, totpCheck code secret step = true →
      code = totpCode secret (step - 1) ∨ code = totpCode secret step ∨
        code = totpCode secret (step + 1))
  ∧ (∀ s, 2 ≤ s - step ∨ 2 ≤ step - s →
      totpCheck (totpCode secret s) secret step = false) := by
  refine ⟨by simp [totpCheck], by simp [totpCheck], by simp [totpCheck],
    ?_, ?_⟩
  · intro code h
    simp [totpCheck] at h
    tauto
  · intro s hs
    rcases hs with hs | hs <;>
      (simp only [totpCheck, Bool.or_eq_false_iff, beq_eq_false_iff_ne, ne_eq]
       exact ⟨⟨fun h => by have := totpCode_inj secret h; omega,
               fun h => by have := totpCode_inj secret h; omega⟩,
              fun h => by have := totpCode_inj secret h; omega⟩)

/-- Concrete instance of C9: with secret `K` at step 5, the code for the
adjacent step 4 validates, the code for step 7 (two windows away) does
not. -/
theorem totp_window_policy_witness :
    totpCheck (totpCode "K" 4) "K" 5 = true
  ∧ totpCheck (totpCode "K" 7) "K" 5 = false :=
  ⟨(totp_window_policy "K" 5).2.1,
   (totp_window_policy "K" 5).2.2.2.2 7 (by decide)⟩

/-- C8: the 2FA status operation returns, for a session resolving to an
identity with empty TOTP secret, the fresh secret together with a signed
setup token of the setup-secret type whose payload secret equals exactly
the returned secret; for an enrolled identity it reports enrolled with a
response carrying neither secret nor token; with no resolvable session it
returns the 401 response. -/
theorem twofa_status_spec (st : SystemState) (reqToken : Token)
    (fresh : String) :
    (lookupSession st.sessions reqToken = none →
        twoFactorStatus st reqToken fresh = .unauthorized)
  ∧ (∀ d, lookupSession st.sessions reqToken = some d →
        d.data.totpSecret = "" →
        twoFactorStatus st reqToken fresh
          = .notSetup fresh d.data.email (Token.signed (.totpSetup fresh))
        ∧ verifyToken (Token.signed (.totpSetup fresh)) = true
        ∧ (decodeToken (Token.signed (.totpSetup fresh))).bind
            Payload.secretField = some fresh
        ∧ (decodeToken (Token.signed (.totpSetup fresh))).bind
            Payload.typeField = some "totp_setup_secret")
  ∧ (∀ d, lookupSession st.sessions reqToken = some d →
        d.data.totpSecret ≠ "" →
        twoFactorStatus st reqToken fresh = .enrolled) := by
  refine ⟨fun h => ?_, fun d hd hsec => ?_, fun d hd hsec => ?_⟩
  · simp [twoFactorStatus, h]
  · exact ⟨by simp [twoFactorStatus, hd, hsec], rfl, rfl, rfl⟩
  · simp [twoFactorStatus, hd, hsec]

/-- Concrete instance of C8: in `sessionState` the not-enrolled user gets
the fresh secret and a setup token binding exactly that secret. -/
theorem twofa_status_spec_witness :
    twoFactorStatus sessionState sampleSessionToken "FRESH"
      = .notSetup "FRESH" "a@x.com" (Token.signed (.totpSetup "FRESH")) :=
  ((twofa_status_spec sessionState sampleSessionToken "FRESH").2.1
    ⟨sampleUser, some 1⟩ (by decide) rfl).1

/-- C2: the second-factor completion operation responds with the same
generic 401 rejection and an unchanged state whenever the pending token
fails signature verification, or decodes to a type other than the
needs-second-factor type (in particular for a signed token of the
setup-secret type), or its identity id resolves to no credential record,
or the submitted TOTP code does not validate against the record's
secret. -/
theorem twofa_verify_uniform (st : SystemState) (tmpToken : Token)
    (totpToken : String) (step : Nat)
    (h : verifyToken tmpToken = false
      ∨ (∀ p, decodeToken tmpToken = some p →
          p.typeField ≠ some "password_valid_needs_second_factor_token")
      ∨ (∀ uid, decodeToken tmpToken = some (.needsSecondFactor uid) →
          findById st.db uid = none)
      ∨ (∃ uid u, decodeToken tmpToken = some (.needsSecondFactor uid)
          ∧ findById st.db uid = some u
          ∧ totpCheck totpToken u.totpSecret step = false)) :
    twoFactorVerify st tmpToken totpToken step = (.unauthorized, st) := by
  cases tmpToken with
  | forged raw => simp [twoFactorVerify, verifyToken]
  | signed p =>
    rcases h with h | h | h | h
    · simp [verifyToken] at h
    · have hp := h p rfl
      cases p with
      | needsSecondFactor uid => simp [Payload.typeField] at hp
      | totpSetup s =>
        simp [twoFactorVerify, verifyToken, decodeToken, Payload.typeField]
      | session d b =>
        simp [twoFactorVerify, verifyToken, decodeToken, Payload.typeField]
    · cases p with
      | needsSecondFactor uid =>
        have hf := h uid rfl
        simp [twoFactorVerify, verifyToken, decodeToken, Payload.typeField,
          Payload.userIdField, hf]
      | totpSetup s =>
        simp [twoFactorVerify, verifyToken, decodeToken, Payload.typeField]
      | session d b =>
        simp [twoFactorVerify, verifyToken, decodeToken, Payload.typeField]
    · obtain ⟨uid, u, hdec, hfind, hchk⟩ := h
      simp only [decodeToken, Option.some.injEq] at hdec
      subst hdec
      simp [twoFactorVerify, verifyToken, decodeToken, Payload.typeField,
        Payload.userIdField, hfind, hchk]

/-- C1: for a credential record with non-empty TOTP secret, a login call
with the matching email and password never returns a full session token
and never registers a session entry; whenever the lockout guard lets the
attempt proceed it responds with the second-factor-required status
carrying a signed pending token of the needs-second-factor type whose
payload identity id is the matched record's id. -/
theorem login_totp_pending (st : SystemState) (email password ip : String)
    (now : Nat) (u : UserRecord)
    (hfind : findUser st.db email (hashPassword password) = some u)
    (hid : u.id ≠ 0) (htotp : u.totpSecret ≠ "") :
    (∀ t b m, (login st email password ip now).1 ≠ .success t b m)
  ∧ (login st email password ip now).2.sessions = st.sessions
  ∧ (isLockedNow st.failed (lockKey email ip) now = false →
      (login st email password ip now).1
        = .totpRequired (Token.signed (.needsSecondFactor u.id)))
  ∧ Payload.typeField (.needsSecondFactor u.id)
      = some "password_valid_needs_second_factor_token" := by
  rcases Bool.eq_false_or_eq_true
      (isLockedNow st.failed (lockKey email ip) now) with hlock | hlock
  · have hA := loginAttempt_locked st email password ip now hlock
    have hlog : login st email password ip now = (.rateLimited, st) := by
      simp only [login, hA]
    rw [hlog]
    refine ⟨by simp, rfl, fun hfalse => ?_, rfl⟩
    rw [hfalse] at hlock
    cases hlock
  · obtain ⟨st1, hdb, hsess, _, hlog⟩ :=
      login_unlocked_eq st email password ip now hlock
    have hfind1 : findUser st1.db email (hashPassword password) = some u := by
      rw [hdb]; exact hfind
    have hm := loginMain_totp st1 email password ip now u hfind1 hid htotp
    rw [hlog, hm]
    exact ⟨by simp, hsess, fun _ => rfl, rfl⟩

/-- Concrete instance of C1: the enrolled sample user's login yields the
pending-token response and registers no session. -/
theorem login_totp_pending_witness :
    (login sampleState "b@x.com" "q" "ip" 0).1
      = .totpRequired (Token.signed (.needsSecondFactor 2))
  ∧ (login sampleState "b@x.com" "q" "ip" 0).2.sessions
      = sampleState.sessions :=
  ⟨(login_totp_pending sampleState "b@x.com" "q" "ip" 0 sampleEnrolled
      (by decide) (by decide) (by decide)).2.2.1 (by decide),
   (login_totp_pending sampleState "b@x.com" "q" "ip" 0 sampleEnrolled
      (by decide) (by decide) (by decide)).2.1⟩

/-- C6: for a matching credential record with empty TOTP secret and an
unlocked key, login deletes the lockout entry, ensures a basket for the
identity, issues a session token registered in the Session Registry, and
responds with that token, the basket id and the email; looking the token
up in the registry afterwards returns the registered identity
snapshot. -/
theorem login_success_roundtrip (st : SystemState)
    (email password ip : String) (now : Nat) (u : UserRecord)
    (hfind : findUser st.db email (hashPassword password) = some u)
    (hid : u.id ≠ 0) (htotp : u.totpSecret = "")
    (hnl : isLockedNow st.failed (lockKey email ip) now = false) :
    ∃ bid,
      (login st email password ip now).1
        = .success (Token.signed (.session u none)) bid u.email
      ∧ lookupSession (login st email password ip now).2.sessions
          (Token.signed (.session u none)) = some ⟨u, some bid⟩
      ∧ lookupLock (login st email password ip now).2.failed
          (lockKey email ip) = none
      ∧ basketIdFor (login st email password ip now).2.baskets u.id
          = some bid := by
  obtain ⟨st1, hdb, hsess1, herase, hlog⟩ :=
    login_unlocked_eq st email password ip now hnl
  have hfind1 : findUser st1.db email (hashPassword password) = some u := by
    rw [hdb]; exact hfind
  have hm := loginMain_success st1 email password ip now u hfind1 hid htotp
  obtain ⟨bid, hresp, hsess, hfail, hbask⟩ :=
    afterLogin_spec { st1 with failed := eraseLock st1.failed (lockKey email ip) }
      u (hashPassword password)
  refine ⟨bid, ?_, ?_, ?_, ?_⟩
  · rw [hlog, hm]; exact hresp
  · rw [hlog, hm]; exact hsess
  · rw [hlog, hm, hfail]
    show lookupLock (eraseLock st1.failed (lockKey email ip)) _ = none
    exact lookupLock_erase _ _
  · rw [hlog, hm]; exact hbask

/-- Concrete instance of C6: the sample user's login returns a session
token with basket id 1, the registry round-trips it, and the lockout
entry is gone. -/
theorem login_success_roundtrip_witness :
    ∃ bid,
      (login sampleState "a@x.com" "p" "ip" 0).1
        = .success (Token.signed (.session sampleUser none)) bid "a@x.com"
      ∧ lookupSession (login sampleState "a@x.com" "p" "ip" 0).2.sessions
          (Token.signed (.session sampleUser none))
          = some ⟨sampleUser, some bid⟩
      ∧ lookupLock (login sampleState "a@x.com" "p" "ip" 0).2.failed
          (lockKey "a@x.com" "ip") = none
      ∧ basketIdFor (login sampleState "a@x.com" "p" "ip" 0).2.baskets 1
          = some bid :=
  login_success_roundtrip sampleState "a@x.com" "p" "ip" 0 sampleUser
    (by decide) (by decide) rfl rfl

theorem loginMain_zero (st : SystemState) (email password ip : String)
    (now : Nat) (u : UserRecord)
    (hfind : findUser st.db email (hashPassword password) = some u)
    (hid : u.id = 0) :
    loginMain st email password ip now
      = (hashPassword password, .invalid,
         { st with failed := recordFailure st.failed (lockKey email ip) now }) := by
  simp [loginMain, hfind, hid]

theorem lookupLock_recordFailure_none {l : List (String × LockEntry)}
    {key : String} {now : Nat} (h : lookupLock l key = none) :
    lookupLock (recordFailure l key now) key = some ⟨1, now⟩ := by
  unfold recordFailure
  rw [h]
  simp [lookupLock]

/-- C3: a login attempt is rejected with the rate-limit signal iff the
key's failure count is at least the threshold and strictly less than the
lockout window has elapsed since the last failure; if the count is at the
threshold but the window has elapsed, the entry is deleted (afterwards the
key is either absent or holds a fresh count of 1) and the attempt
proceeds, so a correct-credential attempt succeeds. -/
theorem lockout_window_iff (st : SystemState) (email password ip : String)
    (now : Nat) :
    ((login st email password ip now).1 = .rateLimited ↔
      isLockedNow st.failed (lockKey email ip) now = true)
  ∧ (∀ e, lookupLock st.failed (lockKey email ip) = some e →
      FAILED_ATTEMPTS_LIMIT ≤ e.count →
      ¬ now - e.lastAttempt < LOCK_TIME_MS →
        (lookupLock (login st email password ip now).2.failed (lockKey email ip)
            = none
          ∨ lookupLock (login st email password ip now).2.failed
              (lockKey email ip) = some ⟨1, now⟩)
        ∧ (∀ u, findUser st.db email (hashPassword password) = some u →
            u.id ≠ 0 → u.totpSecret = "" →
            ∃ t bid, (login st email password ip now).1
              = .success t bid u.email)) := by
  constructor
  · constructor
    · intro hresp
      rcases Bool.eq_false_or_eq_true
          (isLockedNow st.failed (lockKey email ip) now) with hlock | hlock
      · exact hlock
      · obtain ⟨st1, _, _, _, hlog⟩ :=
          login_unlocked_eq st email password ip now hlock
        rw [hlog] at hresp
        exact absurd hresp (loginMain_ne_rateLimited st1 email password ip now)
    · intro hlock
      have hA := loginAttempt_locked st email password ip now hlock
      simp only [login, hA]
  · intro e hl hc ht
    have hA := loginAttempt_elapsed st email password ip now e hl hc ht
    have hlog : login st email password ip now
        = (loginMain { st with failed := eraseLock st.failed (lockKey email ip) }
            email password ip now).2 := by
      simp only [login, hA]
    constructor
    · rw [hlog]
      cases hf : findUser st.db email (hashPassword password) with
      | none =>
        rw [loginMain_fail
          { st with failed := eraseLock st.failed (lockKey email ip) }
          email password ip now hf]
        right
        show lookupLock (recordFailure (eraseLock st.failed (lockKey email ip))
          (lockKey email ip) now) (lockKey email ip) = some ⟨1, now⟩
        exact lookupLock_recordFailure_none (lookupLock_erase _ _)
      | some u =>
        by_cases h1 : u.id ≠ 0 ∧ u.totpSecret ≠ ""
        · rw [loginMain_totp
            { st with failed := eraseLock st.failed (lockKey email ip) }
            email password ip now u hf h1.1 h1.2]
          left
          show lookupLock (eraseLock (eraseLock st.failed (lockKey email ip))
            (lockKey email ip)) (lockKey email ip) = none
          exact lookupLock_erase _ _
        · by_cases h2 : u.id ≠ 0
          · have hts : u.totpSecret = "" := by
              by_contra hne
              exact h1 ⟨h2, hne⟩
            rw [loginMain_success
              { st with failed := eraseLock st.failed (lockKey email ip) }
              email password ip now u hf h2 hts]
            left
            obtain ⟨bid, _, _, hfail, _⟩ :=
              afterLogin_spec _ u (hashPassword password)
            rw [hfail]
            show lookupLock (eraseLock (eraseLock st.failed (lockKey email ip))
              (lockKey email ip)) (lockKey email ip) = none
            exact lookupLock_erase _ _
          · have hz : u.id = 0 := by omega
            rw [loginMain_zero
              { st with failed := eraseLock st.failed (lockKey email ip) }
              email password ip now u hf hz]
            right
            show lookupLock (recordFailure (eraseLock st.failed (lockKey email ip))
              (lockKey email ip) now) (lockKey email ip) = some ⟨1, now⟩
            exact lookupLock_recordFailure_none (lookupLock_erase _ _)
    · intro u hfu hid hts
      rw [hlog, loginMain_success
        { st with failed := eraseLock st.failed (lockKey email ip) }
        email password ip now u hfu hid hts]
      obtain ⟨bid, hresp, _, _, _⟩ := afterLogin_spec _ u (hashPassword password)
      exact ⟨_, bid, hresp⟩

/-- Concrete instance of C3: with the locked sample key, an attempt inside
the window is rate-limited; after the window has elapsed, the same
correct-credential attempt succeeds. -/
theorem lockout_window_iff_witness :
    (login lockedState "a@x.com" "p" "ip" 1).1 = .rateLimited
  ∧ (∃ t bid, (login lockedState "a@x.com" "p" "ip" 900000).1
      = .success t bid "a@x.com") :=
  ⟨(lockout_window_iff lockedState "a@x.com" "p" "ip" 1).1.mpr (by decide),
   ((lockout_window_iff lockedState "a@x.com" "p" "ip" 900000).2 ⟨5, 0⟩
      (by decide) (by decide) (by decide)).2 sampleUser (by decide)
      (by decide) rfl⟩

theorem lockInv_recordFailure {l : List (String × LockEntry)} {key : String}
    {now : Nat}
    (h : ∀ p ∈ l, p.2.count ≤ FAILED_ATTEMPTS_LIMIT)
    (hsmall : ∀ e, lookupLock l key = some e →
        e.count < FAILED_ATTEMPTS_LIMIT) :
    ∀ p ∈ recordFailure l key now, p.2.count ≤ FAILED_ATTEMPTS_LIMIT := by
  intro p hp
  rcases mem_recordFailure hp with h1 | ⟨e, he, hc⟩ | hmem
  · rw [h1]; decide
  · have := hsmall e he
    omega
  · exact h p hmem

theorem lockInv_loginMain (st : SystemState) (email password ip : String)
    (now : Nat) (h : LockInv st)
    (hsmall : ∀ e, lookupLock st.failed (lockKey email ip) = some e →
        e.count < FAILED_ATTEMPTS_LIMIT) :
    LockInv (loginMain st email password ip now).2.2 := by
  cases hf : findUser st.db email (hashPassword password) with
  | none =>
    rw [loginMain_fail st email password ip now hf]
    exact lockInv_recordFailure h hsmall
  | some u =>
    by_cases h1 : u.id ≠ 0 ∧ u.totpSecret ≠ ""
    · rw [loginMain_totp st email password ip now u hf h1.1 h1.2]
      exact fun p hp => h p (mem_eraseLock hp)
    · by_cases h2 : u.id ≠ 0
      · have hts : u.totpSecret = "" := by
          by_contra hne
          exact h1 ⟨h2, hne⟩
        rw [loginMain_success st email password ip now u hf h2 hts]
        obtain ⟨bid, _, _, hfail, _⟩ :=
          afterLogin_spec _ u (hashPassword password)
        intro p hp
        rw [LockInv] at h
        refine h p (mem_eraseLock (hfail ▸ hp))
      · have hz : u.id = 0 := by omega
        rw [loginMain_zero st email password ip now u hf hz]
        exact lockInv_recordFailure h hsmall

theorem lockInv_login (st : SystemState) (email password ip : String)
    (now : Nat) (h : LockInv st) :
    LockInv (login st email password ip now).2 := by
  cases hl : lookupLock st.failed (lockKey email ip) with
  | none =>
    have hA := loginAttempt_free st email password ip now
      (fun e he => by rw [hl] at he; cases he)
    have hlog : login st email password ip now
        = (loginMain st email password ip now).2 := by
      simp only [login, hA]
    rw [hlog]
    exact lockInv_loginMain st email password ip now h
      (fun e he => by rw [hl] at he; cases he)
  | some e =>
    by_cases hc : FAILED_ATTEMPTS_LIMIT ≤ e.count
    · by_cases hw : now - e.lastAttempt < LOCK_TIME_MS
      · have hA := loginAttempt_locked st email password ip now
          (isLockedNow_iff.mpr ⟨e, hl, hc, hw⟩)
        have hlog : login st email password ip now = (.rateLimited, st) := by
          simp only [login, hA]
        rw [hlog]
        exact h
      · have hA := loginAttempt_elapsed st email password ip now e hl hc hw
        have hlog : login st email password ip now
            = (loginMain
                { st with failed := eraseLock st.failed (lockKey email ip) }
                email password ip now).2 := by
          simp only [login, hA]
        rw [hlog]
        refine lockInv_loginMain _ email password ip now ?_ ?_
        · exact fun p hp => h p (mem_eraseLock hp)
        · intro e2 he2
          have : lookupLock (eraseLock st.failed (lockKey email ip))
              (lockKey email ip) = some e2 := he2
          rw [lookupLock_erase] at this
          cases this
    · have hA := loginAttempt_free st email password ip now
        (fun e2 he2 => by rw [hl] at he2; cases he2; omega)
      have hlog : login st email password ip now
          = (loginMain st email password ip now).2 := by
        simp only [login, hA]
      rw [hlog]
      exact lockInv_loginMain st email password ip now h
        (fun e2 he2 => by rw [hl] at he2; cases he2; omega)

theorem lockInv_runLogins (st : SystemState) (reqs : List LoginReq)
    (h : LockInv st) : LockInv (runLogins st reqs) := by
  induction reqs generalizing st with
  | nil => exact h
  | cons r rs ih =>
    exact ih _ (lockInv_login st r.email r.password r.ip r.now h)

/-- C4: starting from any state whose lockout entries are all at most the
threshold, any sequence of login requests preserves that bound (no entry's
failure count ever exceeds 5), and a request whose key is locked is
rejected with the rate-limit signal before the password is ever hashed
(the instrumented hash slot of the attempt is empty and the state is
untouched). -/
theorem lockout_invariant (st : SystemState) (reqs : List LoginReq)
    (h : LockInv st) :
    LockInv (runLogins st reqs)
  ∧ (∀ email password ip now,
      isLockedNow st.failed (lockKey email ip) now = true →
        (loginAttempt st email password ip now).1 = none
        ∧ login st email password ip now = (.rateLimited, st)) := by
  refine ⟨lockInv_runLogins st reqs h, fun email password ip now hlock => ?_⟩
  have hA := loginAttempt_locked st email password ip now hlock
  exact ⟨by rw [hA], by simp only [login, hA]⟩

/-- Concrete instance of C4: running a failing request against the locked
sample state preserves the count bound, and the locked key's attempt is
rejected without hashing. -/
theorem lockout_invariant_witness :
    LockInv (runLogins lockedState [⟨"a@x.com", "bad", "ip", 1⟩])
  ∧ (loginAttempt lockedState "a@x.com" "p" "ip" 1).1 = none :=
  ⟨(lockout_invariant lockedState [⟨"a@x.com", "bad", "ip", 1⟩]
      (by unfold LockInv; decide)).1,
   ((lockout_invariant lockedState [⟨"a@x.com", "bad", "ip", 1⟩]
      (by unfold LockInv; decide)).2 "a@x.com" "p" "ip" 1 (by decide)).1⟩

/-- Concrete instance of C2: a signed token of the setup-secret type is
rejected by the second-factor completion operation with the generic 401
and no state change. -/
theorem twofa_verify_uniform_witness :
    twoFactorVerify sampleState (Token.signed (.totpSetup "X")) "123" 5
      = (.unauthorized, sampleState) :=
  twofa_verify_uniform sampleState (Token.signed (.totpSetup "X")) "123" 5
    (Or.inr (Or.inl (fun p hp => by
      simp only [decodeToken, Option.some.injEq] at hp
      subst hp
      decide)))

theorem lookupLock_setLock (l : List (String × LockEntry)) (key : String)
    (e : LockEntry) : lookupLock (setLock l key e) key = some e := by
  induction l with
  | nil => simp [setLock, lookupLock]
  | cons p rest ih =>
    by_cases h : p.1 = key
    · obtain ⟨k, e0⟩ := p
      simp only at h
      simp [setLock, h, lookupLock]
    · obtain ⟨k, e0⟩ := p
      simp only at h
      simp [setLock, h, lookupLock, ih]

theorem twoFactorVerify_failed_eq (st : SystemState) (t : Token)
    (code : String) (step : Nat) :
    (twoFactorVerify st t code step).2.failed = st.failed := by
  cases t with
  | forged raw => simp [twoFactorVerify, verifyToken]
  | signed p =>
    cases p with
    | needsSecondFactor uid =>
      cases hf : findById st.db uid with
      | none =>
        simp [twoFactorVerify, verifyToken, decodeToken, Payload.typeField,
          Payload.userIdField, hf]
      | some user =>
        by_cases hchk : totpCheck code user.totpSecret step = true
        · have hbask := (findOrCreateBasket_spec st uid).2.2.2
          simp [twoFactorVerify, verifyToken, decodeToken,
            Payload.typeField, Payload.userIdField, hf, hchk, hbask]
        · simp [twoFactorVerify, verifyToken, decodeToken, Payload.typeField,
            Payload.userIdField, hf, hchk]
    | totpSetup s =>
      simp [twoFactorVerify, verifyToken, decodeToken, Payload.typeField]
    | session d b =>
      simp [twoFactorVerify, verifyToken, decodeToken, Payload.typeField]

/-- C7 counterexample: a failed second-factor completion (a syntactically
valid pending token for the enrolled user together with an invalid TOTP
code) responds with the generic 401 but leaves the entire state — in
particular the failed-login-attempts map — unchanged: no lockout counter
is incremented. -/
theorem twofa_verify_no_lockout_update :
    totpCheck "wrong" sampleEnrolled.totpSecret 5 = false
  ∧ twoFactorVerify enrolledState (Token.signed (.needsSecondFactor 2))
      "wrong" 5 = (.unauthorized, enrolledState)
  ∧ (twoFactorVerify enrolledState (Token.signed (.needsSecondFactor 2))
      "wrong" 5).2.failed = enrolledState.failed := by
  exact ⟨by decide, by decide, by decide⟩

/-- C7 (amended): in the login operation a genuine credential mismatch,
while the key is below the lockout threshold, yields the generic invalid
response and updates the Lockout Tracker (incrementing the key's failure
count, or creating it at count 1); a failed second-factor completion
yields the generic 401 but never updates the Lockout Tracker — the
failed-attempts map is unchanged by every `twoFactorVerify` call, which
has no access to it. -/
theorem failure_paths_tracker (st : SystemState) (email password ip : String)
    (now : Nat) (tmpToken : Token) (code : String) (step : Nat)
    (hmatch : findUser st.db email (hashPassword password) = none)
    (hsmall : ∀ e, lookupLock st.failed (lockKey email ip) = some e →
        e.count < FAILED_ATTEMPTS_LIMIT) :
    ((login st email password ip now).1 = .invalid
      ∧ (∀ e0, lookupLock st.failed (lockKey email ip) = some e0 →
          lookupLock (login st email password ip now).2.failed
            (lockKey email ip) = some ⟨e0.count + 1, now⟩)
      ∧ (lookupLock st.failed (lockKey email ip) = none →
          lookupLock (login st email password ip now).2.failed
            (lockKey email ip) = some ⟨1, now⟩))
  ∧ (twoFactorVerify st tmpToken code step).2.failed = st.failed := by
  have hA := loginAttempt_free st email password ip now hsmall
  have hlog : login st email password ip now
      = (loginMain st email password ip now).2 := by
    simp only [login, hA]
  rw [hlog, loginMain_fail st email password ip now hmatch]
  refine ⟨⟨rfl, fun e0 he0 => ?_, fun hn => ?_⟩,
    twoFactorVerify_failed_eq st tmpToken code step⟩
  · show lookupLock (recordFailure st.failed (lockKey email ip) now)
      (lockKey email ip) = some ⟨e0.count + 1, now⟩
    unfold recordFailure
    rw [he0]
    exact lookupLock_setLock _ _ _
  · show lookupLock (recordFailure st.failed (lockKey email ip) now)
      (lockKey email ip) = some ⟨1, now⟩
    exact lookupLock_recordFailure_none hn

/-- Concrete instance of the amended C7: a wrong password creates the
lockout entry with count 1, while a failed second-factor completion
leaves the lockout map untouched. -/
theorem failure_paths_tracker_witness :
    (login sampleState "a@x.com" "bad" "ip" 7).1 = .invalid
  ∧ lookupLock (login sampleState "a@x.com" "bad" "ip" 7).2.failed
      (lockKey "a@x.com" "ip") = some ⟨1, 7⟩
  ∧ (twoFactorVerify sampleState (Token.signed (.needsSecondFactor 2))
      "wrong" 5).2.failed = sampleState.failed := by
  have hsmall : ∀ e, lookupLock sampleState.failed (lockKey "a@x.com" "ip")
      = some e → e.count < FAILED_ATTEMPTS_LIMIT := fun e he => by
    simp [sampleState, lookupLock] at he
  have h := failure_paths_tracker sampleState "a@x.com" "bad" "ip" 7
    (Token.signed (.needsSecondFactor 2)) "wrong" 5 (by decide) hsmall
  exact ⟨h.1.1, h.1.2.2 (by decide), h.2⟩

/-- C5: the 2FA setup operation succeeds if and only if a session
resolves, the submitted password's hash matches the stored hash under the
constant-time comparator, the current secret is empty, the setup token
verifies and decodes to the setup-secret type, and the first TOTP code
validates against the decoded secret (assuming the session's identity is
present in the user table); on success the secret is persisted to the
credential record and the session snapshot replaced, so a second setup
call on the same session fails because the secret is now non-empty. -/
theorem twofa_setup_iff (st : SystemState) (reqToken : Token)
    (password : String) (setupToken : Token) (initialToken : String)
    (step : Nat)
    (hwf : ∀ d, lookupSession st.sessions reqToken = some d →
        (findById st.db d.data.id).isSome) :
    ((twoFactorSetup st reqToken password setupToken initialToken step).1
        = .ok ↔ SetupOk st reqToken password setupToken initialToken step)
  ∧ (∀ d secret um,
      lookupSession st.sessions reqToken = some d →
      decodeToken setupToken = some (.totpSetup secret) →
      findById st.db d.data.id = some um →
      (twoFactorSetup st reqToken password setupToken initialToken step).1
        = .ok →
      (twoFactorSetup st reqToken password setupToken initialToken step).2
        = { st with
              db := updateUser st.db d.data.id { um with totpSecret := secret },
              sessions := putSession st.sessions reqToken
                ⟨{ um with totpSecret := secret }, none⟩ }
      ∧ (secret ≠ "" → ∀ pw tok itok stp,
          (twoFactorSetup
            (twoFactorSetup st reqToken password setupToken initialToken
              step).2 reqToken pw tok itok stp).1 = .unauthorized)) := by
  cases hs : lookupSession st.sessions reqToken with
  | none =>
    refine ⟨⟨fun habs => ?_, fun hok => ?_⟩, fun d secret um hd => ?_⟩
    · simp [twoFactorSetup, hs] at habs
    · obtain ⟨d, hd, _⟩ := hok
      rw [hs] at hd
      cases hd
    · cases hd
  | some d =>
    by_cases hpw : constantTimeCompare d.data.password (hash password) = true
    · by_cases hse : d.data.totpSecret = ""
      · cases setupToken with
        | forged raw =>
          refine ⟨⟨fun habs => ?_, fun hok => ?_⟩,
            fun d2 secret um hd2 hdec => ?_⟩
          · simp [twoFactorSetup, hs, hpw, hse, verifyToken] at habs
          · obtain ⟨d2, hd2, _, _, hver, _⟩ := hok
            simp [verifyToken] at hver
          · simp [decodeToken] at hdec
        | signed p =>
          cases p with
          | totpSetup secret0 =>
            by_cases hchk : totpCheck initialToken secret0 step = true
            · obtain ⟨um, hum⟩ :=
                Option.isSome_iff_exists.mp (hwf d hs)
              have hres : twoFactorSetup st reqToken password
                  (Token.signed (.totpSetup secret0)) initialToken step
                  = (.ok,
                     { st with
                         db := updateUser st.db d.data.id
                           { um with totpSecret := secret0 },
                         sessions := putSession st.sessions reqToken
                           ⟨{ um with totpSecret := secret0 }, none⟩ }) := by
                simp [twoFactorSetup, hs, hpw, hse, verifyToken, decodeToken,
                  Payload.typeField, Payload.secretField, hchk, hum]
              refine ⟨⟨fun _ => ?_, fun _ => by rw [hres]⟩,
                fun d2 secret um2 hd2 hdec hum2 hok => ?_⟩
              · exact ⟨d, hs, hpw, hse, rfl, secret0, rfl, hchk⟩
              · cases hd2
                simp only [decodeToken, Option.some.injEq,
                  Payload.totpSetup.injEq] at hdec
                subst hdec
                rw [hum] at hum2
                cases hum2
                refine ⟨by rw [hres], fun hsec pw tok itok stp => ?_⟩
                rw [hres]
                have hs2 : lookupSession
                    (putSession st.sessions reqToken
                      ⟨{ um with totpSecret := secret0 }, none⟩) reqToken
                    = some ⟨{ um with totpSecret := secret0 }, none⟩ :=
                  lookupSession_put _ _ _
                by_cases hpw2 : constantTimeCompare
                    ({ um with totpSecret := secret0 } : UserRecord).password
                    (hash pw) = true
                · simp [twoFactorSetup, hs2, hpw2, hsec]
                · simp [twoFactorSetup, hs2, hpw2]
            · refine ⟨⟨fun habs => ?_, fun hok => ?_⟩,
                fun d2 secret um hd2 hdec hum hok => ?_⟩
              · simp [twoFactorSetup, hs, hpw, hse, verifyToken, decodeToken,
                  Payload.typeField, Payload.secretField, hchk] at habs
              · obtain ⟨d2, hd2, _, _, _, secret, hdec, hchk2⟩ := hok
                simp only [decodeToken, Option.some.injEq,
                  Payload.totpSetup.injEq] at hdec
                subst hdec
                exact (hchk hchk2).elim
              · exfalso
                simp only [decodeToken, Option.some.injEq,
                  Payload.totpSetup.injEq] at hdec
                subst hdec
                simp [twoFactorSetup, hs, hpw, hse, verifyToken, decodeToken,
                  Payload.typeField, Payload.secretField, hchk] at hok
          | needsSecondFactor uid =>
            refine ⟨⟨fun habs => ?_, fun hok => ?_⟩,
              fun d2 secret um hd2 hdec => ?_⟩
            · simp [twoFactorSetup, hs, hpw, hse, verifyToken, decodeToken,
                Payload.typeField] at habs
            · obtain ⟨d2, hd2, _, _, _, secret, hdec, _⟩ := hok
              simp [decodeToken] at hdec
            · simp [decodeToken] at hdec
          | session dd bb =>
            refine ⟨⟨fun habs => ?_, fun hok => ?_⟩,
              fun d2 secret um hd2 hdec => ?_⟩
            · simp [twoFactorSetup, hs, hpw, hse, verifyToken, decodeToken,
                Payload.typeField] at habs
            · obtain ⟨d2, hd2, _, _, _, secret, hdec, _⟩ := hok
              simp [decodeToken] at hdec
            · simp [decodeToken] at hdec
      · refine ⟨⟨fun habs => ?_, fun hok => ?_⟩,
          fun d2 secret um hd2 hdec hum hok => ?_⟩
        · simp [twoFactorSetup, hs, hpw, hse] at habs
        · obtain ⟨d2, hd2, _, hse2, _⟩ := hok
          rw [hs] at hd2
          cases hd2
          exact (hse hse2).elim
        · exfalso
          simp [twoFactorSetup, hs, hpw, hse] at hok
    · refine ⟨⟨fun habs => ?_, fun hok => ?_⟩,
        fun d2 secret um hd2 hdec hum hok => ?_⟩
      · simp [twoFactorSetup, hs, hpw] at habs
      · obtain ⟨d2, hd2, hpw2, _⟩ := hok
        rw [hs] at hd2
        cases hd2
        exact (hpw hpw2).elim
      · exfalso
        simp [twoFactorSetup, hs, hpw] at hok

/-- Concrete instance of C5: with a live session, correct password, fresh
setup token and matching first code the setup succeeds; repeating the same
call on the resulting state fails because the secret is now set. -/
theorem twofa_setup_iff_witness :
    (twoFactorSetup sessionState sampleSessionToken "p"
        (Token.signed (.totpSetup "NEW")) (totpCode "NEW" 5) 5).1 = .ok
  ∧ (twoFactorSetup (twoFactorSetup sessionState sampleSessionToken "p"
        (Token.signed (.totpSetup "NEW")) (totpCode "NEW" 5) 5).2
        sampleSessionToken "p" (Token.signed (.totpSetup "NEW"))
        (totpCode "NEW" 5) 5).1 = .unauthorized := by
  have hwf : ∀ d, lookupSession sessionState.sessions sampleSessionToken
      = some d → (findById sessionState.db d.data.id).isSome := fun d hd => by
    have hv : (some (⟨sampleUser, some 1⟩ : SessionUser)
        : Option SessionUser) = some d := hd
    cases hv
    decide
  have hth := twofa_setup_iff sessionState sampleSessionToken "p"
    (Token.signed (.totpSetup "NEW")) (totpCode "NEW" 5) 5 hwf
  have hok : (twoFactorSetup sessionState sampleSessionToken "p"
      (Token.signed (.totpSetup "NEW")) (totpCode "NEW" 5) 5).1 = .ok :=
    hth.1.mpr ⟨⟨sampleUser, some 1⟩, rfl, by decide, rfl, rfl,
      "NEW", rfl, by decide⟩
  refine ⟨hok, ?_⟩
  have h2 := hth.2 ⟨sampleUser, some 1⟩ "NEW" sampleUser rfl rfl
    (by decide) hok
  exact h2.2 (by decide) "p" (Token.signed (.totpSetup "NEW"))
    (totpCode "NEW" 5) 5

/-- C10: the public file server rejects with 403 every name containing a
forward or backward slash; a file is sent only when the raw name ends in
`.md` or `.pdf` or equals `incident-support.kdbx`, and the path sent is
exactly the resolution of the sanitized (null-byte-cut, slash- and
dot-dot-stripped) name, which lies strictly inside the `ftp/` base
directory; whenever the resolution escapes the base directory, nothing is
sent and the response is a 403. -/
theorem serve_public_files_safe (file : String) :
    ((file.data.any (fun c => c == '/') || file.data.any (fun c => c == '\\'))
        = true →
      servePublicFiles file = .forbiddenSlash
      ∧ fileStatus (servePublicFiles file) = 403)
  ∧ (∀ p, servePublicFiles file = .sent p →
      (endsWithAllowlistedFileType file = true ∨ file = "incident-support.kdbx")
      ∧ p = resolveInBase basePath (sanitizeFile (cutOffPoisonNullByte file))
      ∧ withinBase basePath p = true)
  ∧ (withinBase basePath
        (resolveInBase basePath (sanitizeFile (cutOffPoisonNullByte file)))
        = false →
      fileStatus (servePublicFiles file) = 403
      ∧ ∀ p, servePublicFiles file ≠ .sent p) := by
  refine ⟨fun h => ?_, fun p hp => ?_, fun hesc => ?_⟩
  · have hcond : (!(file.data.any fun c => c == '/') &&
        !(file.data.any fun c => c == '\\')) = false := by
      simp only [Bool.or_eq_true] at h
      rcases h with h | h <;> simp [h]
    constructor
    · simp [servePublicFiles, hcond]
    · simp [servePublicFiles, hcond, fileStatus]
  · by_cases hcond : (!(file.data.any fun c => c == '/') &&
        !(file.data.any fun c => c == '\\')) = true
    · rw [servePublicFiles, if_pos hcond] at hp
      by_cases hallow : file ≠ ""
          ∧ (endsWithAllowlistedFileType file = true
             ∨ file = "incident-support.kdbx")
      · rw [verifyFile, if_pos hallow] at hp
        by_cases hwb : withinBase basePath
            (resolveInBase basePath (sanitizeFile (cutOffPoisonNullByte file)))
            = true
        · simp only [hwb, if_true] at hp
          cases hp
          exact ⟨hallow.2, rfl, hwb⟩
        · simp only [Bool.not_eq_true] at hwb
          simp [hwb] at hp
      · rw [verifyFile, if_neg hallow] at hp
        cases hp
    · simp only [Bool.not_eq_true] at hcond
      rw [servePublicFiles, if_neg (by simp [hcond])] at hp
      cases hp
  · by_cases hcond : (!(file.data.any fun c => c == '/') &&
        !(file.data.any fun c => c == '\\')) = true
    · by_cases hallow : file ≠ ""
          ∧ (endsWithAllowlistedFileType file = true
             ∨ file = "incident-support.kdbx")
      · have hv : verifyFile file = .forbiddenTraversal := by
          simp [verifyFile, hallow, hesc]
        have hsf : servePublicFiles file = .forbiddenTraversal := by
          rw [servePublicFiles, if_pos hcond, hv]
        rw [hsf]
        exact ⟨rfl, fun p hp => by cases hp⟩
      · have hv : verifyFile file = .forbiddenType := by
          rw [verifyFile, if_neg hallow]
        have hsf : servePublicFiles file = .forbiddenType := by
          rw [servePublicFiles, if_pos hcond, hv]
        rw [hsf]
        exact ⟨rfl, fun p hp => by cases hp⟩
    · have hsf : servePublicFiles file = .forbiddenSlash := by
        simp only [Bool.not_eq_true] at hcond
        rw [servePublicFiles, if_neg (by simp [hcond])]
      rw [hsf]
      exact ⟨rfl, fun p hp => by cases hp⟩

/-- Concrete instance of C10: a slashed name is rejected, a plain `.md`
name resolves inside the base, and a name whose sanitized resolution
escapes the base yields a 403. -/
theorem serve_public_files_safe_witness :
    servePublicFiles "a/b.md" = .forbiddenSlash
  ∧ withinBase basePath ["srv", "ftp", "legal.md"] = true
  ∧ fileStatus (servePublicFiles "..%00.md") = 403 :=
  ⟨((serve_public_files_safe "a/b.md").1 (by decide)).1,
   ((serve_public_files_safe "legal.md").2.1 ["srv", "ftp", "legal.md"]
      (by decide)).2.2,
   ((serve_public_files_safe "..%00.md").2.2 (by decide)).1⟩

end JuiceAuth
